import Mathlib

/-!
Verification of the Intan RHS loader (`src/element_interface/intan_loader.py`).

The byte source is modelled as a `List Nat` of bytes together with an explicit
cursor position, mirroring the sequentially advancing file handle of the
source.  Numeric reads (`struct.unpack` calls) become total functions returning
`Except Err`: a read past the end of the source models the `struct.error`
raised when `fid.read` returns fewer bytes than requested.  Signed 16-bit
fields are decoded into `Int` by explicit two's complement; `float32` fields
are kept as their raw little-endian 32-bit value (a bijective encoding - no
claim computes with their real value).  Decoded strings are kept as the list
of 16-bit code units (Python builds the same string with one `chr` per unit,
surrogates included, so the two representations are in bijection).
-/

namespace IntanRHS

set_option maxRecDepth 20000

/-- Error conditions of the decoder.  Each constructor corresponds to one
raise site of the source: `shortRead` is `struct.error` (a read past the end
of the file), `malformedLength` is the string guard raise at
`_read_qstring`, `badMagic` is the magic-number raise, and the two signal
class errors are the raises inside the channel classification chain. -/
inductive Err where
  | shortRead
  | malformedLength
  | badMagic
  | unsupportedSignalClass
  | unknownSignalClass
deriving DecidableEq, Repr, Inhabited

/-- A reader consumes bytes from a fixed source at a cursor position and
returns a value together with the new position (or an error). -/
def Reader (α : Type) : Type := List Nat → Nat → Except Err (α × Nat)

/-- Sequencing of two readers: the cursor of the first is threaded into the
second, errors abort (mirrors sequential `fid.read` calls with raised
exceptions). -/
def rbind {α β : Type} (f : Reader α) (g : α → Reader β) : Reader β :=
  fun b pos =>
    match f b pos with
    | .error e => .error e
    | .ok (a, p) => g a b p

/-- A reader that consumes nothing. -/
def rpure {α : Type} (a : α) : Reader α := fun _ pos => .ok (a, pos)

/-- Lift a cursor-independent computation into a reader. -/
def rlift {α : Type} (x : Except Err α) : Reader α :=
  fun _ pos =>
    match x with
    | .error e => .error e
    | .ok a => .ok (a, pos)

/-- The byte at index `i` (sources are lists of values `< 256`). -/
def byteAt (b : List Nat) (i : Nat) : Nat := b.getD i 0

/-- Read `struct.unpack("<H", fid.read(2))`: one little-endian unsigned 16-bit
value. -/
def readU16 : Reader Nat := fun b pos =>
  if pos + 2 ≤ b.length then .ok (byteAt b pos + 256 * byteAt b (pos + 1), pos + 2)
  else .error .shortRead

/-- Read `struct.unpack("<I", fid.read(4))`: one little-endian unsigned 32-bit
value. -/
def readU32 : Reader Nat := fun b pos =>
  if pos + 4 ≤ b.length then
    .ok (byteAt b pos + 256 * byteAt b (pos + 1) + 65536 * byteAt b (pos + 2) +
          16777216 * byteAt b (pos + 3), pos + 4)
  else .error .shortRead

/-- Two's complement reading of an unsigned 16-bit value. -/
def toI16 (w : Nat) : Int := if w < 32768 then (w : Int) else (w : Int) - 65536

/-- Read `struct.unpack("<h", fid.read(2))`: one little-endian signed 16-bit
value. -/
def readI16 : Reader Int := rbind readU16 fun w => rpure (toI16 w)

/-- A `float32` field, kept as its raw 32-bit little-endian pattern. -/
def readF32raw : Reader Nat := readU32

/-- The code-unit loop of `_read_qstring`: read `k` 16-bit little-endian
units. -/
def readUnits : Nat → Reader (List Nat)
  | 0 => rpure []
  | k + 1 =>
    rbind readU16 fun c =>
    rbind (readUnits k) fun s =>
    rpure (c :: s)

/-- Continuation of `_read_qstring` after the length prefix has been read:
the `0xFFFFFFFF` sentinel returns the null string at once, the guard
`length > st_size - fid.tell() + 1` raises `malformedLength`, and otherwise
`int(length / 2)` code units are read. -/
def qstringBody (length : Nat) : Reader (List Nat) := fun b p =>
  if length = 4294967295 then .ok ([], p)
  else if length > b.length - p + 1 then .error .malformedLength
  else readUnits (length / 2) b p

/-- The function `_read_qstring`: a 32-bit byte-count prefix followed by the
sentinel / guard / code-unit logic of `qstringBody`. -/
def _read_qstring : Reader (List Nat) := rbind readU32 qstringBody

/-- The four-field spike trigger block read for every channel record. -/
structure TriggerChannel where
  voltage_trigger_mode : Int
  voltage_threshold : Int
  digital_trigger_channel : Int
  digital_edge_polarity : Int
deriving DecidableEq, Repr, Inhabited

/-- One channel record (`new_channel` in the source).  `port_pfx` is the
source's `port_prefix` field. -/
structure Channel where
  port_name : List Nat
  port_pfx : List Nat
  port_number : Nat
  native_channel_name : List Nat
  custom_channel_name : List Nat
  native_order : Int
  custom_order : Int
  chip_channel : Int
  board_stream : Int
  electrode_impedance_magnitude : Nat
  electrode_impedance_phase : Nat
deriving DecidableEq, Repr, Inhabited

/-- Everything decoded for one channel record before classification:
the channel, its trigger block, and the two control fields
(`signal_type` and `channel_enabled`) that drive classification. -/
structure ChannelFields where
  ch : Channel
  trig : TriggerChannel
  signal_type : Int
  channel_enabled : Int
deriving DecidableEq, Repr, Inhabited

/-- The six channel collections that the loop appends into. -/
structure ChanAcc where
  spike_triggers : List TriggerChannel
  amplifier_channels : List Channel
  board_adc_channels : List Channel
  board_dac_channels : List Channel
  board_dig_in_channels : List Channel
  board_dig_out_channels : List Channel
deriving DecidableEq, Repr, Inhabited

/-- The empty collections created just before the signal-group loop. -/
def emptyAcc : ChanAcc :=
  { spike_triggers := [], amplifier_channels := [], board_adc_channels := [],
    board_dac_channels := [], board_dig_in_channels := [], board_dig_out_channels := [] }

/-- All scalar and string header fields read before the signal-group loop,
plus the group count.  Float32 fields carry their raw 32-bit pattern. -/
structure Pre where
  version_major : Int
  version_minor : Int
  sample_rate : Nat
  dsp_enabled : Int
  actual_dsp_cutoff_frequency : Nat
  actual_lower_bandwidth : Nat
  actual_lower_settle_bandwidth : Nat
  actual_upper_bandwidth : Nat
  desired_dsp_cutoff_frequency : Nat
  desired_lower_bandwidth : Nat
  desired_lower_settle_bandwidth : Nat
  desired_upper_bandwidth : Nat
  notch_filter_frequency : Nat
  desired_impedance_test_frequency : Nat
  actual_impedance_test_frequency : Nat
  amp_settle_mode : Int
  charge_recovery_mode : Int
  stim_step_size : Nat
  recovery_current_limit : Nat
  recovery_target_voltage : Nat
  note1 : List Nat
  note2 : List Nat
  note3 : List Nat
  dc_amplifier_data_saved : Int
  eval_board_mode : Int
  ref_channel_name : List Nat
  number_of_signal_groups : Int
deriving DecidableEq, Repr, Inhabited

/-- The `frequency_parameters` sub-record copied from already read fields. -/
structure FrequencyParameters where
  amplifier_sample_rate : Nat
  board_adc_sample_rate : Nat
  board_dig_in_sample_rate : Nat
  desired_dsp_cutoff_frequency : Nat
  actual_dsp_cutoff_frequency : Nat
  dsp_enabled : Int
  desired_lower_bandwidth : Nat
  desired_lower_settle_bandwidth : Nat
  actual_lower_bandwidth : Nat
  actual_lower_settle_bandwidth : Nat
  desired_upper_bandwidth : Nat
  actual_upper_bandwidth : Nat
  notch_filter_frequency : Nat
  desired_impedance_test_frequency : Nat
  actual_impedance_test_frequency : Nat
deriving DecidableEq, Repr, Inhabited

/-- The fully decoded header (the `header` dict returned by
`_read_header`). -/
structure Header where
  version_major : Int
  version_minor : Int
  sample_rate : Nat
  dsp_enabled : Int
  actual_dsp_cutoff_frequency : Nat
  actual_lower_bandwidth : Nat
  actual_lower_settle_bandwidth : Nat
  actual_upper_bandwidth : Nat
  desired_dsp_cutoff_frequency : Nat
  desired_lower_bandwidth : Nat
  desired_lower_settle_bandwidth : Nat
  desired_upper_bandwidth : Nat
  notch_filter_frequency : Nat
  desired_impedance_test_frequency : Nat
  actual_impedance_test_frequency : Nat
  amp_settle_mode : Int
  charge_recovery_mode : Int
  frequency_parameters : FrequencyParameters
  stim_step_size : Nat
  recovery_current_limit : Nat
  recovery_target_voltage : Nat
  note1 : List Nat
  note2 : List Nat
  note3 : List Nat
  dc_amplifier_data_saved : Int
  eval_board_mode : Int
  ref_channel_name : List Nat
  spike_triggers : List TriggerChannel
  amplifier_channels : List Channel
  board_adc_channels : List Channel
  board_dac_channels : List Channel
  board_dig_in_channels : List Channel
  board_dig_out_channels : List Channel
  num_amplifier_channels : Nat
  num_board_adc_channels : Nat
  num_board_dac_channels : Nat
  num_board_dig_in_channels : Nat
  num_board_dig_out_channels : Nat
deriving DecidableEq, Repr, Inhabited

/-- Comparison of the magic value against `0xD69127AC` (`= 3599837100`);
a mismatch raises `badMagic` and nothing further is read. -/
def magicBody (magic : Nat) : Reader Unit := fun _ pos =>
  if magic = 3599837100 then .ok ((), pos) else .error .badMagic

/-- The magic-number check at the top of `_read_header`. -/
def checkMagic : Reader Unit := rbind readU32 magicBody

/-- All header reads between the magic check and the signal-group loop,
in the exact order of the source (version, sample rate, the
`<hffffffff` DSP block, notch mode and its 0/50/60 mapping, impedance
test frequencies, settle and recovery modes, the three stim and recovery
floats, three notes, two flags, the reference channel name, and the
signal-group count). -/
def readPreludeRest : Reader Pre :=
  rbind readI16 fun version_major =>
  rbind readI16 fun version_minor =>
  rbind readF32raw fun sample_rate =>
  rbind readI16 fun dsp_enabled =>
  rbind readF32raw fun actual_dsp_cutoff_frequency =>
  rbind readF32raw fun actual_lower_bandwidth =>
  rbind readF32raw fun actual_lower_settle_bandwidth =>
  rbind readF32raw fun actual_upper_bandwidth =>
  rbind readF32raw fun desired_dsp_cutoff_frequency =>
  rbind readF32raw fun desired_lower_bandwidth =>
  rbind readF32raw fun desired_lower_settle_bandwidth =>
  rbind readF32raw fun desired_upper_bandwidth =>
  rbind readI16 fun notch_filter_mode =>
  rbind readF32raw fun desired_impedance_test_frequency =>
  rbind readF32raw fun actual_impedance_test_frequency =>
  rbind readI16 fun amp_settle_mode =>
  rbind readI16 fun charge_recovery_mode =>
  rbind readF32raw fun stim_step_size =>
  rbind readF32raw fun recovery_current_limit =>
  rbind readF32raw fun recovery_target_voltage =>
  rbind _read_qstring fun note1 =>
  rbind _read_qstring fun note2 =>
  rbind _read_qstring fun note3 =>
  rbind readI16 fun dc_amplifier_data_saved =>
  rbind readI16 fun eval_board_mode =>
  rbind _read_qstring fun ref_channel_name =>
  rbind readI16 fun number_of_signal_groups =>
  rpure
    { version_major, version_minor, sample_rate, dsp_enabled,
      actual_dsp_cutoff_frequency, actual_lower_bandwidth,
      actual_lower_settle_bandwidth, actual_upper_bandwidth,
      desired_dsp_cutoff_frequency, desired_lower_bandwidth,
      desired_lower_settle_bandwidth, desired_upper_bandwidth,
      notch_filter_frequency :=
        if notch_filter_mode = 1 then 50 else if notch_filter_mode = 2 then 60 else 0,
      desired_impedance_test_frequency, actual_impedance_test_frequency,
      amp_settle_mode, charge_recovery_mode, stim_step_size,
      recovery_current_limit, recovery_target_voltage,
      note1, note2, note3, dc_amplifier_data_saved, eval_board_mode,
      ref_channel_name, number_of_signal_groups }

/-- Everything `_read_header` reads up to (and including) the signal-group count. -/
def readPrelude : Reader Pre := rbind checkMagic fun _ => readPreludeRest

/-- One channel record: two strings, seven signed shorts (the sixth one,
`command_stream`, is read and ignored), the four-field trigger block and
two impedance floats, in source order. -/
def decodeChannelFields (gname gpfx : List Nat) (gi : Nat) : Reader ChannelFields :=
  rbind _read_qstring fun native_channel_name =>
  rbind _read_qstring fun custom_channel_name =>
  rbind readI16 fun native_order =>
  rbind readI16 fun custom_order =>
  rbind readI16 fun signal_type =>
  rbind readI16 fun channel_enabled =>
  rbind readI16 fun chip_channel =>
  rbind readI16 fun _command_stream =>
  rbind readI16 fun board_stream =>
  rbind readI16 fun voltage_trigger_mode =>
  rbind readI16 fun voltage_threshold =>
  rbind readI16 fun digital_trigger_channel =>
  rbind readI16 fun digital_edge_polarity =>
  rbind readF32raw fun electrode_impedance_magnitude =>
  rbind readF32raw fun electrode_impedance_phase =>
  rpure
    { ch :=
        { port_name := gname, port_pfx := gpfx, port_number := gi,
          native_channel_name, custom_channel_name, native_order, custom_order,
          chip_channel, board_stream,
          electrode_impedance_magnitude, electrode_impedance_phase },
      trig :=
        { voltage_trigger_mode, voltage_threshold,
          digital_trigger_channel, digital_edge_polarity },
      signal_type, channel_enabled }

/-- The classification chain at the end of the channel loop body:
`if channel_enabled:` then dispatch on `signal_type`, appending to exactly
one collection or raising; a disabled channel is dropped. -/
def classifyChannel (f : ChannelFields) (acc : ChanAcc) : Except Err ChanAcc :=
  if f.channel_enabled ≠ 0 then
    if f.signal_type = 0 then
      .ok { acc with
            amplifier_channels := acc.amplifier_channels ++ [f.ch],
            spike_triggers := acc.spike_triggers ++ [f.trig] }
    else if f.signal_type = 1 then .error .unsupportedSignalClass
    else if f.signal_type = 2 then .error .unsupportedSignalClass
    else if f.signal_type = 3 then
      .ok { acc with board_adc_channels := acc.board_adc_channels ++ [f.ch] }
    else if f.signal_type = 4 then
      .ok { acc with board_dac_channels := acc.board_dac_channels ++ [f.ch] }
    else if f.signal_type = 5 then
      .ok { acc with board_dig_in_channels := acc.board_dig_in_channels ++ [f.ch] }
    else if f.signal_type = 6 then
      .ok { acc with board_dig_out_channels := acc.board_dig_out_channels ++ [f.ch] }
    else .error .unknownSignalClass
  else .ok acc

/-- The inner `for signal_channel in range(0, signal_group_num_channels)`
loop: decode a record, classify it, continue with the grown collections. -/
def readChannels (gname gpfx : List Nat) (gi : Nat) : Nat → ChanAcc → Reader ChanAcc
  | 0, acc => rpure acc
  | k + 1, acc =>
    rbind (decodeChannelFields gname gpfx gi) fun f =>
    rbind (rlift (classifyChannel f acc)) fun acc' =>
    readChannels gname gpfx gi k acc'

/-- One iteration of the outer signal-group loop: group name and port
prefix strings, three shorts (enabled flag, channel count, and a third
count field bound to `signal_group_num_amp_channels` and never used), then
the channel loop when `num_channels > 0 and enabled > 0`. -/
def groupStep (gi : Nat) (acc : ChanAcc) : Reader ChanAcc :=
  rbind _read_qstring fun gname =>
  rbind _read_qstring fun gpfx =>
  rbind readI16 fun signal_group_enabled =>
  rbind readI16 fun signal_group_num_channels =>
  rbind readI16 fun _signal_group_num_amp_channels =>
  if 0 < signal_group_num_channels ∧ 0 < signal_group_enabled then
    readChannels gname gpfx gi signal_group_num_channels.toNat acc
  else rpure acc

/-- The outer `for signal_group in range(1, number_of_signal_groups + 1)`
loop, `groupStep` repeated once per group with the group index advancing. -/
def readGroups : Nat → Nat → ChanAcc → Reader ChanAcc
  | 0, _, acc => rpure acc
  | k + 1, gi, acc =>
    rbind (groupStep gi acc) fun acc' =>
    readGroups k (gi + 1) acc'

/-- Assembly of the returned header: all prelude fields, the
`frequency_parameters` copies, the six collections, and the five derived
counts computed as `len(...)` of the final collections. -/
def buildHeader (pre : Pre) (acc : ChanAcc) : Header :=
  { version_major := pre.version_major, version_minor := pre.version_minor,
    sample_rate := pre.sample_rate, dsp_enabled := pre.dsp_enabled,
    actual_dsp_cutoff_frequency := pre.actual_dsp_cutoff_frequency,
    actual_lower_bandwidth := pre.actual_lower_bandwidth,
    actual_lower_settle_bandwidth := pre.actual_lower_settle_bandwidth,
    actual_upper_bandwidth := pre.actual_upper_bandwidth,
    desired_dsp_cutoff_frequency := pre.desired_dsp_cutoff_frequency,
    desired_lower_bandwidth := pre.desired_lower_bandwidth,
    desired_lower_settle_bandwidth := pre.desired_lower_settle_bandwidth,
    desired_upper_bandwidth := pre.desired_upper_bandwidth,
    notch_filter_frequency := pre.notch_filter_frequency,
    desired_impedance_test_frequency := pre.desired_impedance_test_frequency,
    actual_impedance_test_frequency := pre.actual_impedance_test_frequency,
    amp_settle_mode := pre.amp_settle_mode,
    charge_recovery_mode := pre.charge_recovery_mode,
    frequency_parameters :=
      { amplifier_sample_rate := pre.sample_rate,
        board_adc_sample_rate := pre.sample_rate,
        board_dig_in_sample_rate := pre.sample_rate,
        desired_dsp_cutoff_frequency := pre.desired_dsp_cutoff_frequency,
        actual_dsp_cutoff_frequency := pre.actual_dsp_cutoff_frequency,
        dsp_enabled := pre.dsp_enabled,
        desired_lower_bandwidth := pre.desired_lower_bandwidth,
        desired_lower_settle_bandwidth := pre.desired_lower_settle_bandwidth,
        actual_lower_bandwidth := pre.actual_lower_bandwidth,
        actual_lower_settle_bandwidth := pre.actual_lower_settle_bandwidth,
        desired_upper_bandwidth := pre.desired_upper_bandwidth,
        actual_upper_bandwidth := pre.actual_upper_bandwidth,
        notch_filter_frequency := pre.notch_filter_frequency,
        desired_impedance_test_frequency := pre.desired_impedance_test_frequency,
        actual_impedance_test_frequency := pre.actual_impedance_test_frequency },
    stim_step_size := pre.stim_step_size,
    recovery_current_limit := pre.recovery_current_limit,
    recovery_target_voltage := pre.recovery_target_voltage,
    note1 := pre.note1, note2 := pre.note2, note3 := pre.note3,
    dc_amplifier_data_saved := pre.dc_amplifier_data_saved,
    eval_board_mode := pre.eval_board_mode,
    ref_channel_name := pre.ref_channel_name,
    spike_triggers := acc.spike_triggers,
    amplifier_channels := acc.amplifier_channels,
    board_adc_channels := acc.board_adc_channels,
    board_dac_channels := acc.board_dac_channels,
    board_dig_in_channels := acc.board_dig_in_channels,
    board_dig_out_channels := acc.board_dig_out_channels,
    num_amplifier_channels := acc.amplifier_channels.length,
    num_board_adc_channels := acc.board_adc_channels.length,
    num_board_dac_channels := acc.board_dac_channels.length,
    num_board_dig_in_channels := acc.board_dig_in_channels.length,
    num_board_dig_out_channels := acc.board_dig_out_channels.length }

/-- The function `_read_header`: magic check, prelude fields, the signal-group loop
started on empty collections with group index 1, then header assembly.
Trailing bytes after the last group are never read. -/
def _read_header (b : List Nat) : Except Err Header :=
  match readPrelude b 0 with
  | .error e => .error e
  | .ok (pre, pos) =>
    match readGroups pre.number_of_signal_groups.toNat 1 emptyAcc b pos with
    | .error e => .error e
    | .ok (acc, _) => .ok (buildHeader pre acc)

/-! ### The sample interpreter (recording loop of `load_rhs`)

Each data file is modelled by its stem (a `String`) and its contents as the
list of raw little-endian 16-bit words produced by `np.memmap` (amp files
use the same bytes reinterpreted as signed 16-bit, which `toI16` performs).
Converted samples are exact rationals: the source's scale constants
`0.195`, `0.0003125` and `19.23` are the rationals `39/200`, `1/3200` and
`1923/100`, and `stim_step_size` enters as a rational parameter. -/

/-- Characters of the first dash-separated token: everything before the
first `'-'` (the whole list when no dash occurs), which is exactly the
element `[0]` of Python's `split("-")`. -/
def firstToken : List Char → List Char
  | [] => []
  | c :: cs => if c = '-' then [] else c :: firstToken cs

/-- The classification key `signal_type = file_path.stem.split("-")[0]`. -/
def signalTypeOf (stem : String) : String := String.mk (firstToken stem.data)

def ampS : String := "amp"

def boardS : String := "board"

def dcS : String := "dc"

def stimS : String := "stim"

/-- Scale constant `0.195` (microvolts per amp count). -/
def ampScale : ℚ := 39 / 200

/-- Scale constant `0.0003125` (volts per recentred board count). -/
def boardScale : ℚ := 1 / 3200

/-- Scale constant `19.23` (millivolts per recentred dc count). -/
def dcScale : ℚ := 1923 / 100

/-- NumPy uint16 subtraction: `a - b` between a uint16 array and a Python
int scalar that fits in uint16 keeps the uint16 dtype (in both the legacy
value-based-casting and the NEP-50 promotion rules), so it wraps modulo
`2^16` instead of going negative. -/
def u16sub (a b : Nat) : Nat := (((a : Int) - (b : Int)) % 65536).toNat

/-- The stim branch:
`current = np.bitwise_and(signal, 255) * stim_step_size` (float64),
`sign = 1 - np.bitwise_and(signal, 256) // 128`, output `current * sign`.
Note the sign subtraction stays uint16 (`u16sub`): when bit 8 is set,
`1 - 2` wraps to 65535, not -1. -/
def stimDecode (stim_step_size : ℚ) (w : Nat) : ℚ :=
  let current : ℚ := (Nat.land w 255 : Nat) * stim_step_size
  let sign : Nat := u16sub 1 (Nat.land w 256 / 128)
  current * (sign : ℚ)

/-- One iteration of the recording loop: the `if/elif` chain on the stem's
first dash-separated token.  The `signal - 32768` and `signal - 512`
recentrings of the board and dc branches are uint16 subtractions
(`u16sub`): they wrap modulo `2^16` for raw words below the offset before
the float scaling is applied.  There is no `else` branch in the source, so
an unmatched stem leaves `signal` bound to whatever the previous iteration
computed (`prev`); `none` models the still-unbound `signal` variable. -/
def interpretStream (stim_step_size : ℚ) (stem : String) (data : List Nat)
    (prev : Option (List ℚ)) : Option (List ℚ) :=
  let st := signalTypeOf stem
  if st = ampS then
    some (List.map (fun w => (toI16 w : ℚ) * ampScale) data)
  else if st = boardS then
    some (List.map (fun w => (u16sub w 32768 : ℚ) * boardScale) data)
  else if st = dcS then
    some (List.map (fun w => (u16sub w 512 : ℚ) * dcScale) data)
  else if st = stimS then
    some (List.map (stimDecode stim_step_size) data)
  else prev

/-- The whole recording loop over the sorted data files.
`rhs_data["recordings"][file_path.stem] = signal` raises `NameError` when
`signal` was never assigned (first file unmatched), which aborts the whole
load: that is the `none` result.  Otherwise every file's stem is recorded
with the current value of `signal`. -/
def processFiles (stim_step_size : ℚ) :
    List (String × List Nat) → Option (List ℚ) → Option (List (String × List ℚ))
  | [], _ => some []
  | (stem, data) :: rest, prev =>
    match interpretStream stim_step_size stem data prev with
    | none => none
    | some sig =>
      match processFiles stim_step_size rest (some sig) with
      | none => none
      | some out => some ((stem, sig) :: out)

/-! ### Cursor monotonicity and locality of the readers

`Mono f`: a successful read never moves the cursor backwards.
`FF f` (future frame): the result depends only on the source length and the
bytes at the cursor position and beyond.
`PF f` (past frame): a successful read depends only on the source length and
the bytes it actually consumed.
These three are packaged as `Good` and proved for every decode component;
they carry the determinism and non-interference arguments. -/

def Mono {α : Type} (f : Reader α) : Prop :=
  ∀ b pos r p', f b pos = .ok (r, p') → pos ≤ p'

def FF {α : Type} (f : Reader α) : Prop :=
  ∀ b₁ b₂ pos, b₂.length = b₁.length →
    (∀ j, pos ≤ j → byteAt b₂ j = byteAt b₁ j) → f b₂ pos = f b₁ pos

def PF {α : Type} (f : Reader α) : Prop :=
  ∀ b₁ b₂ pos r p', f b₁ pos = .ok (r, p') → b₂.length = b₁.length →
    (∀ j, pos ≤ j → j < p' → byteAt b₂ j = byteAt b₁ j) → f b₂ pos = .ok (r, p')

def Good {α : Type} (f : Reader α) : Prop := Mono f ∧ FF f ∧ PF f

theorem good_rpure {α : Type} (a : α) : Good (rpure a) := by
  refine ⟨?_, ?_, ?_⟩
  · intro b pos r p' h
    simp only [rpure, Except.ok.injEq, Prod.mk.injEq] at h
    omega
  · intro b₁ b₂ pos _ _
    rfl
  · intro b₁ b₂ pos r p' h _ _
    exact h

theorem good_rlift {α : Type} (x : Except Err α) : Good (rlift x) := by
  refine ⟨?_, ?_, ?_⟩
  · intro b pos r p' h
    unfold rlift at h
    cases x with
    | error e => simp at h
    | ok a =>
      simp only [Except.ok.injEq, Prod.mk.injEq] at h
      omega
  · intro b₁ b₂ pos _ _
    rfl
  · intro b₁ b₂ pos r p' h _ _
    exact h

theorem good_rbind {α β : Type} {f : Reader α} {g : α → Reader β}
    (hf : Good f) (hg : ∀ a, Good (g a)) : Good (rbind f g) := by
  obtain ⟨hfm, hff, hfp⟩ := hf
  refine ⟨?_, ?_, ?_⟩
  · intro b pos r p' h
    simp only [rbind] at h
    cases hfe : f b pos with
    | error e => rw [hfe] at h; exact absurd h (by simp)
    | ok v =>
      obtain ⟨a, pm⟩ := v
      rw [hfe] at h
      exact le_trans (hfm b pos a pm hfe) ((hg a).1 b pm r p' h)
  · intro b₁ b₂ pos hlen hag
    simp only [rbind]
    rw [hff b₁ b₂ pos hlen hag]
    cases hfe : f b₁ pos with
    | error e => rfl
    | ok v =>
      obtain ⟨a, pm⟩ := v
      exact (hg a).2.1 b₁ b₂ pm hlen
        (fun j hj => hag j (le_trans (hfm b₁ pos a pm hfe) hj))
  · intro b₁ b₂ pos r p' h hlen hag
    simp only [rbind] at h ⊢
    cases hfe : f b₁ pos with
    | error e => rw [hfe] at h; exact absurd h (by simp)
    | ok v =>
      obtain ⟨a, pm⟩ := v
      rw [hfe] at h
      have hpm : pos ≤ pm := hfm b₁ pos a pm hfe
      have hp' : pm ≤ p' := (hg a).1 b₁ pm r p' h
      have hf2 : f b₂ pos = .ok (a, pm) :=
        hfp b₁ b₂ pos a pm hfe hlen
          (fun j hj1 hj2 => hag j hj1 (lt_of_lt_of_le hj2 hp'))
      rw [hf2]
      exact (hg a).2.2 b₁ b₂ pm r p' h hlen
        (fun j hj1 hj2 => hag j (le_trans hpm hj1) hj2)

theorem good_readU16 : Good readU16 := by
  refine ⟨?_, ?_, ?_⟩
  · intro b pos r p' h
    unfold readU16 at h
    split at h
    · simp only [Except.ok.injEq, Prod.mk.injEq] at h
      omega
    · exact absurd h (by simp)
  · intro b₁ b₂ pos hlen hag
    unfold readU16
    rw [hlen, hag pos (by omega), hag (pos + 1) (by omega)]
  · intro b₁ b₂ pos r p' h hlen hag
    unfold readU16 at h ⊢
    split at h
    · rename_i hle
      rw [if_pos (by omega : pos + 2 ≤ b₂.length),
        hag pos (by omega) (by simp only [Except.ok.injEq, Prod.mk.injEq] at h; omega),
        hag (pos + 1) (by omega) (by simp only [Except.ok.injEq, Prod.mk.injEq] at h; omega)]
      exact h
    · exact absurd h (by simp)

theorem good_readU32 : Good readU32 := by
  refine ⟨?_, ?_, ?_⟩
  · intro b pos r p' h
    unfold readU32 at h
    split at h
    · simp only [Except.ok.injEq, Prod.mk.injEq] at h
      omega
    · exact absurd h (by simp)
  · intro b₁ b₂ pos hlen hag
    unfold readU32
    rw [hlen, hag pos (by omega), hag (pos + 1) (by omega), hag (pos + 2) (by omega),
      hag (pos + 3) (by omega)]
  · intro b₁ b₂ pos r p' h hlen hag
    unfold readU32 at h ⊢
    split at h
    · rename_i hle
      have hp' : p' = pos + 4 := by
        simp only [Except.ok.injEq, Prod.mk.injEq] at h
        omega
      rw [if_pos (by omega : pos + 4 ≤ b₂.length),
        hag pos (by omega) (by omega), hag (pos + 1) (by omega) (by omega),
        hag (pos + 2) (by omega) (by omega), hag (pos + 3) (by omega) (by omega)]
      exact h
    · exact absurd h (by simp)

theorem good_readI16 : Good readI16 :=
  good_rbind good_readU16 (fun w => good_rpure (toI16 w))

theorem good_readF32raw : Good readF32raw := good_readU32

theorem good_readUnits (k : Nat) : Good (readUnits k) := by
  induction k with
  | zero => exact good_rpure []
  | succ k ih =>
    exact good_rbind good_readU16
      (fun c => good_rbind ih (fun s => good_rpure (c :: s)))

/-- Shape of a successful `readU32`: the value is below `2^32` only when the
source holds bytes, but the cursor always lands at `pos + 4`. -/
theorem readU32_ok_pos (b : List Nat) (pos v p' : Nat)
    (h : readU32 b pos = .ok (v, p')) : p' = pos + 4 ∧ pos + 4 ≤ b.length := by
  unfold readU32 at h
  split at h
  · simp only [Except.ok.injEq, Prod.mk.injEq] at h
    omega
  · exact absurd h (by simp)

theorem good_qstringBody (n : Nat) : Good (qstringBody n) := by
  refine ⟨?_, ?_, ?_⟩
  · intro b pos r p' h
    unfold qstringBody at h
    split at h
    · simp only [Except.ok.injEq, Prod.mk.injEq] at h
      omega
    · split at h
      · exact absurd h (by simp)
      · exact (good_readUnits (n / 2)).1 b pos r p' h
  · intro b₁ b₂ pos hlen hag
    unfold qstringBody
    rw [hlen]
    split
    · rfl
    · split
      · rfl
      · exact (good_readUnits (n / 2)).2.1 b₁ b₂ pos hlen hag
  · intro b₁ b₂ pos r p' h hlen hag
    unfold qstringBody at h ⊢
    rw [hlen]
    split at h
    · rw [if_pos (by assumption)]
      exact h
    · rename_i hsent
      rw [if_neg hsent]
      split at h
      · exact absurd h (by simp)
      · rename_i hguard
        rw [if_neg hguard]
        exact (good_readUnits (n / 2)).2.2 b₁ b₂ pos r p' h hlen hag

theorem good_qstring : Good _read_qstring :=
  good_rbind good_readU32 good_qstringBody

theorem good_magicBody (m : Nat) : Good (magicBody m) := by
  refine ⟨?_, ?_, ?_⟩
  · intro b pos r p' h
    unfold magicBody at h
    split at h
    · simp only [Except.ok.injEq, Prod.mk.injEq] at h
      omega
    · exact absurd h (by simp)
  · intro b₁ b₂ pos _ _
    rfl
  · intro b₁ b₂ pos r p' h _ _
    exact h

theorem good_checkMagic : Good checkMagic :=
  good_rbind good_readU32 good_magicBody

theorem good_readPreludeRest : Good readPreludeRest := by
  unfold readPreludeRest
  refine good_rbind good_readI16 fun a => ?_
  refine good_rbind good_readI16 fun a => ?_
  refine good_rbind good_readF32raw fun a => ?_
  refine good_rbind good_readI16 fun a => ?_
  refine good_rbind good_readF32raw fun a => ?_
  refine good_rbind good_readF32raw fun a => ?_
  refine good_rbind good_readF32raw fun a => ?_
  refine good_rbind good_readF32raw fun a => ?_
  refine good_rbind good_readF32raw fun a => ?_
  refine good_rbind good_readF32raw fun a => ?_
  refine good_rbind good_readF32raw fun a => ?_
  refine good_rbind good_readF32raw fun a => ?_
  refine good_rbind good_readI16 fun a => ?_
  refine good_rbind good_readF32raw fun a => ?_
  refine good_rbind good_readF32raw fun a => ?_
  refine good_rbind good_readI16 fun a => ?_
  refine good_rbind good_readI16 fun a => ?_
  refine good_rbind good_readF32raw fun a => ?_
  refine good_rbind good_readF32raw fun a => ?_
  refine good_rbind good_readF32raw fun a => ?_
  refine good_rbind good_qstring fun a => ?_
  refine good_rbind good_qstring fun a => ?_
  refine good_rbind good_qstring fun a => ?_
  refine good_rbind good_readI16 fun a => ?_
  refine good_rbind good_readI16 fun a => ?_
  refine good_rbind good_qstring fun a => ?_
  refine good_rbind good_readI16 fun a => ?_
  exact good_rpure _

theorem good_readPrelude : Good readPrelude :=
  good_rbind good_checkMagic fun _ => good_readPreludeRest

theorem good_decodeChannelFields (gname gpfx : List Nat) (gi : Nat) :
    Good (decodeChannelFields gname gpfx gi) := by
  unfold decodeChannelFields
  refine good_rbind good_qstring fun a => ?_
  refine good_rbind good_qstring fun a => ?_
  refine good_rbind good_readI16 fun a => ?_
  refine good_rbind good_readI16 fun a => ?_
  refine good_rbind good_readI16 fun a => ?_
  refine good_rbind good_readI16 fun a => ?_
  refine good_rbind good_readI16 fun a => ?_
  refine good_rbind good_readI16 fun a => ?_
  refine good_rbind good_readI16 fun a => ?_
  refine good_rbind good_readI16 fun a => ?_
  refine good_rbind good_readI16 fun a => ?_
  refine good_rbind good_readI16 fun a => ?_
  refine good_rbind good_readI16 fun a => ?_
  refine good_rbind good_readF32raw fun a => ?_
  refine good_rbind good_readF32raw fun a => ?_
  exact good_rpure _

theorem good_readChannels (gname gpfx : List Nat) (gi k : Nat) (acc : ChanAcc) :
    Good (readChannels gname gpfx gi k acc) := by
  induction k generalizing acc with
  | zero => exact good_rpure acc
  | succ k ih =>
    exact good_rbind (good_decodeChannelFields gname gpfx gi)
      (fun f => good_rbind (good_rlift (classifyChannel f acc)) (fun acc' => ih acc'))

theorem good_groupStep (gi : Nat) (acc : ChanAcc) : Good (groupStep gi acc) := by
  unfold groupStep
  refine good_rbind good_qstring fun gname => ?_
  refine good_rbind good_qstring fun gpfx => ?_
  refine good_rbind good_readI16 fun en => ?_
  refine good_rbind good_readI16 fun nc => ?_
  refine good_rbind good_readI16 fun na => ?_
  split
  · exact good_readChannels gname gpfx gi nc.toNat acc
  · exact good_rpure acc

theorem good_readGroups (k gi : Nat) (acc : ChanAcc) : Good (readGroups k gi acc) := by
  induction k generalizing gi acc with
  | zero => exact good_rpure acc
  | succ k ih =>
    exact good_rbind (good_groupStep gi acc) fun acc' => ih (gi + 1) acc'

/-! ### No decode step after the magic check can raise `badMagic` -/

def NoBM {α : Type} (f : Reader α) : Prop :=
  ∀ b pos, f b pos ≠ .error .badMagic

theorem nobm_rpure {α : Type} (a : α) : NoBM (rpure a) := by
  intro b pos h
  simp [rpure] at h

theorem nobm_rbind {α β : Type} {f : Reader α} {g : α → Reader β}
    (hf : NoBM f) (hg : ∀ a, NoBM (g a)) : NoBM (rbind f g) := by
  intro b pos h
  simp only [rbind] at h
  cases hfe : f b pos with
  | error e =>
    rw [hfe] at h
    simp only [Except.error.injEq] at h
    exact hf b pos (by rw [hfe, h])
  | ok v =>
    obtain ⟨a, p⟩ := v
    rw [hfe] at h
    exact hg a b p h

theorem nobm_readU16 : NoBM readU16 := by
  intro b pos h
  unfold readU16 at h
  split at h <;> simp at h

theorem nobm_readU32 : NoBM readU32 := by
  intro b pos h
  unfold readU32 at h
  split at h <;> simp at h

theorem nobm_readI16 : NoBM readI16 :=
  nobm_rbind nobm_readU16 fun w => nobm_rpure (toI16 w)

theorem nobm_readF32raw : NoBM readF32raw := nobm_readU32

theorem nobm_readUnits (k : Nat) : NoBM (readUnits k) := by
  induction k with
  | zero => exact nobm_rpure []
  | succ k ih =>
    exact nobm_rbind nobm_readU16
      (fun c => nobm_rbind ih (fun s => nobm_rpure (c :: s)))

theorem nobm_qstringBody (n : Nat) : NoBM (qstringBody n) := by
  intro b pos h
  unfold qstringBody at h
  split at h
  · simp at h
  · split at h
    · simp at h
    · exact nobm_readUnits (n / 2) b pos h

theorem nobm_qstring : NoBM _read_qstring :=
  nobm_rbind nobm_readU32 nobm_qstringBody

theorem classifyChannel_ne_badMagic (f : ChannelFields) (acc : ChanAcc) :
    classifyChannel f acc ≠ .error .badMagic := by
  unfold classifyChannel
  split_ifs <;> simp

theorem nobm_rlift_classify (f : ChannelFields) (acc : ChanAcc) :
    NoBM (rlift (classifyChannel f acc)) := by
  intro b pos h
  unfold rlift at h
  cases hc : classifyChannel f acc with
  | error e =>
    rw [hc] at h
    simp only [Except.error.injEq] at h
    exact classifyChannel_ne_badMagic f acc (by rw [hc, h])
  | ok a =>
    rw [hc] at h
    simp at h

theorem nobm_decodeChannelFields (gname gpfx : List Nat) (gi : Nat) :
    NoBM (decodeChannelFields gname gpfx gi) := by
  unfold decodeChannelFields
  refine nobm_rbind nobm_qstring fun a => ?_
  refine nobm_rbind nobm_qstring fun a => ?_
  refine nobm_rbind nobm_readI16 fun a => ?_
  refine nobm_rbind nobm_readI16 fun a => ?_
  refine nobm_rbind nobm_readI16 fun a => ?_
  refine nobm_rbind nobm_readI16 fun a => ?_
  refine nobm_rbind nobm_readI16 fun a => ?_
  refine nobm_rbind nobm_readI16 fun a => ?_
  refine nobm_rbind nobm_readI16 fun a => ?_
  refine nobm_rbind nobm_readI16 fun a => ?_
  refine nobm_rbind nobm_readI16 fun a => ?_
  refine nobm_rbind nobm_readI16 fun a => ?_
  refine nobm_rbind nobm_readI16 fun a => ?_
  refine nobm_rbind nobm_readF32raw fun a => ?_
  refine nobm_rbind nobm_readF32raw fun a => ?_
  exact nobm_rpure _

theorem nobm_readChannels (gname gpfx : List Nat) (gi k : Nat) (acc : ChanAcc) :
    NoBM (readChannels gname gpfx gi k acc) := by
  induction k generalizing acc with
  | zero => exact nobm_rpure acc
  | succ k ih =>
    exact nobm_rbind (nobm_decodeChannelFields gname gpfx gi)
      (fun f => nobm_rbind (nobm_rlift_classify f acc) (fun acc' => ih acc'))

theorem nobm_groupStep (gi : Nat) (acc : ChanAcc) : NoBM (groupStep gi acc) := by
  unfold groupStep
  refine nobm_rbind nobm_qstring fun gname => ?_
  refine nobm_rbind nobm_qstring fun gpfx => ?_
  refine nobm_rbind nobm_readI16 fun en => ?_
  refine nobm_rbind nobm_readI16 fun nc => ?_
  refine nobm_rbind nobm_readI16 fun na => ?_
  split
  · exact nobm_readChannels gname gpfx gi nc.toNat acc
  · exact nobm_rpure acc

theorem nobm_readGroups (k gi : Nat) (acc : ChanAcc) : NoBM (readGroups k gi acc) := by
  induction k generalizing gi acc with
  | zero => exact nobm_rpure acc
  | succ k ih =>
    exact nobm_rbind (nobm_groupStep gi acc) fun acc' => ih (gi + 1) acc'

theorem nobm_readPreludeRest : NoBM readPreludeRest := by
  unfold readPreludeRest
  refine nobm_rbind nobm_readI16 fun a => ?_
  refine nobm_rbind nobm_readI16 fun a => ?_
  refine nobm_rbind nobm_readF32raw fun a => ?_
  refine nobm_rbind nobm_readI16 fun a => ?_
  refine nobm_rbind nobm_readF32raw fun a => ?_
  refine nobm_rbind nobm_readF32raw fun a => ?_
  refine nobm_rbind nobm_readF32raw fun a => ?_
  refine nobm_rbind nobm_readF32raw fun a => ?_
  refine nobm_rbind nobm_readF32raw fun a => ?_
  refine nobm_rbind nobm_readF32raw fun a => ?_
  refine nobm_rbind nobm_readF32raw fun a => ?_
  refine nobm_rbind nobm_readF32raw fun a => ?_
  refine nobm_rbind nobm_readI16 fun a => ?_
  refine nobm_rbind nobm_readF32raw fun a => ?_
  refine nobm_rbind nobm_readF32raw fun a => ?_
  refine nobm_rbind nobm_readI16 fun a => ?_
  refine nobm_rbind nobm_readI16 fun a => ?_
  refine nobm_rbind nobm_readF32raw fun a => ?_
  refine nobm_rbind nobm_readF32raw fun a => ?_
  refine nobm_rbind nobm_readF32raw fun a => ?_
  refine nobm_rbind nobm_qstring fun a => ?_
  refine nobm_rbind nobm_qstring fun a => ?_
  refine nobm_rbind nobm_qstring fun a => ?_
  refine nobm_rbind nobm_readI16 fun a => ?_
  refine nobm_rbind nobm_readI16 fun a => ?_
  refine nobm_rbind nobm_qstring fun a => ?_
  refine nobm_rbind nobm_readI16 fun a => ?_
  exact nobm_rpure _

/-! ### Shape lemmas for the string decoder -/

theorem readU16_ok_pos (b : List Nat) (pos v p' : Nat)
    (h : readU16 b pos = .ok (v, p')) : p' = pos + 2 ∧ pos + 2 ≤ b.length := by
  unfold readU16 at h
  split at h
  · simp only [Except.ok.injEq, Prod.mk.injEq] at h
    omega
  · exact absurd h (by simp)

/-- A failing code-unit read can only be a `shortRead` (`struct.error`). -/
theorem readUnits_err (k : Nat) (b : List Nat) (pos : Nat) (e : Err)
    (h : readUnits k b pos = .error e) : e = .shortRead := by
  induction k generalizing pos e with
  | zero => simp [readUnits, rpure] at h
  | succ k ih =>
    simp only [readUnits, rbind] at h
    cases hu : readU16 b pos with
    | error e' =>
      rw [hu] at h
      simp only [Except.error.injEq] at h
      unfold readU16 at hu
      split at hu
      · simp at hu
      · simp only [Except.error.injEq] at hu
        rw [← h, ← hu]
    | ok v =>
      obtain ⟨c, pm⟩ := v
      rw [hu] at h
      simp only [rbind] at h
      cases hr : readUnits k b pm with
      | error e'' =>
        rw [hr] at h
        simp only [Except.error.injEq] at h
        rw [← h]
        exact ih pm e'' hr
      | ok w =>
        obtain ⟨s, p''⟩ := w
        rw [hr] at h
        simp [rpure] at h

/-- A successful code-unit loop returns exactly `k` units and advances the
cursor by exactly `2 * k` bytes. -/
theorem readUnits_shape (k : Nat) (b : List Nat) (pos : Nat) (s : List Nat) (p' : Nat)
    (h : readUnits k b pos = .ok (s, p')) : s.length = k ∧ p' = pos + 2 * k := by
  induction k generalizing pos s p' with
  | zero =>
    simp only [readUnits, rpure, Except.ok.injEq, Prod.mk.injEq] at h
    obtain ⟨h1, h2⟩ := h
    subst h1
    simp
    omega
  | succ k ih =>
    simp only [readUnits, rbind] at h
    cases hu : readU16 b pos with
    | error e => rw [hu] at h; exact absurd h (by simp)
    | ok v =>
      obtain ⟨c, pm⟩ := v
      rw [hu] at h
      simp only [rbind] at h
      cases hr : readUnits k b pm with
      | error e => rw [hr] at h; exact absurd h (by simp)
      | ok w =>
        obtain ⟨s', p''⟩ := w
        rw [hr] at h
        simp only [rpure, Except.ok.injEq, Prod.mk.injEq] at h
        obtain ⟨h1, h2⟩ := h
        obtain ⟨ihl, ihp⟩ := ih pm s' p'' hr
        have hpm := (readU16_ok_pos b pos c pm hu).1
        subst h1
        simp [ihl]
        omega

/-! ### Claims C4, C5, C6: the string decoder -/

/-- Claim C4 (confirmed): when the 32-bit length prefix is the all-ones
sentinel `0xFFFFFFFF`, `_read_qstring` returns the empty string and the
cursor advances by exactly the 4 prefix bytes. -/
theorem c4_null_sentinel_returns_empty (b : List Nat) (pos p' : Nat)
    (h : readU32 b pos = .ok (4294967295, p')) :
    _read_qstring b pos = .ok ([], p') ∧ p' = pos + 4 := by
  refine ⟨?_, (readU32_ok_pos b pos 4294967295 p' h).1⟩
  simp only [_read_qstring, rbind, h]
  simp [qstringBody]

theorem c4_witness : _read_qstring [255, 255, 255, 255] 0 = .ok ([], 4) ∧ 4 = 0 + 4 :=
  c4_null_sentinel_returns_empty [255, 255, 255, 255] 0 4 rfl

/-- Claim C5 counterexample: the source bytes `[1, 0, 0, 0]` carry the
non-sentinel length prefix 1 with 0 bytes remaining after the prefix, so the
byte count exceeds the remaining bytes; the claim demands a
`MalformedLength` failure, but the decode succeeds (the guard in the source
is `length > remaining + 1`, not `length > remaining`). -/
theorem c5_counterexample :
    readU32 [1, 0, 0, 0] 0 = .ok (1, 4) ∧ (1 : Nat) ≠ 4294967295 ∧
    List.length [1, 0, 0, 0] - 4 < 1 ∧
    _read_qstring [1, 0, 0, 0] 0 = .ok ([], 4) :=
  ⟨rfl, by decide, by decide, rfl⟩

/-- Claim C5 (amended): for a non-sentinel length prefix `n`,
`_read_qstring` fails with `malformedLength` exactly when `n` exceeds the
number of bytes remaining after the prefix plus one (the source guard is
`length > st_size - fid.tell() + 1`). -/
theorem c5_malformed_length_iff (b : List Nat) (pos n : Nat)
    (h : readU32 b pos = .ok (n, pos + 4)) (hs : n ≠ 4294967295) :
    _read_qstring b pos = .error .malformedLength ↔ b.length - (pos + 4) + 1 < n := by
  simp only [_read_qstring, rbind, h]
  unfold qstringBody
  rw [if_neg hs]
  by_cases hg : n > b.length - (pos + 4) + 1
  · rw [if_pos hg]
    simp [hg]
  · rw [if_neg hg]
    constructor
    · intro hu
      exact absurd (readUnits_err (n / 2) b (pos + 4) .malformedLength hu) (by decide)
    · intro hc
      omega

theorem c5_witness : _read_qstring [10, 0, 0, 0] 0 = .error .malformedLength :=
  (c5_malformed_length_iff [10, 0, 0, 0] 0 10 rfl (by decide)).mpr (by decide)

/-- Claim C6 counterexample: the source bytes `[3, 0, 0, 0, 65, 0, 99]`
carry the non-sentinel length prefix `n = 3`; the decode succeeds, but the
cursor advances 6 bytes (`4 + 2 * (3 / 2)`), not the `4 + n = 7` bytes the
claim states for every successful call. -/
theorem c6_counterexample :
    readU32 [3, 0, 0, 0, 65, 0, 99] 0 = .ok (3, 4) ∧ (3 : Nat) ≠ 4294967295 ∧
    _read_qstring [3, 0, 0, 0, 65, 0, 99] 0 = .ok ([65], 6) ∧ (6 : Nat) ≠ 0 + 4 + 3 :=
  ⟨rfl, by decide, rfl, by decide⟩

/-- Claim C6 (amended): every successful non-sentinel `_read_qstring` call
with length prefix `n` returns exactly `⌊n / 2⌋` independently decoded
16-bit code units and advances the cursor by exactly `4 + 2 * ⌊n / 2⌋`
bytes - which is `4 + n` whenever `n` is even (for odd `n` the final byte
is left unconsumed by `length = int(length / 2)`). -/
theorem c6_success_shape (b : List Nat) (pos n : Nat) (s : List Nat) (p' : Nat)
    (h : readU32 b pos = .ok (n, pos + 4)) (hs : n ≠ 4294967295)
    (hq : _read_qstring b pos = .ok (s, p')) :
    s.length = n / 2 ∧ p' = pos + 4 + 2 * (n / 2) := by
  simp only [_read_qstring, rbind, h] at hq
  unfold qstringBody at hq
  rw [if_neg hs] at hq
  split at hq
  · exact absurd hq (by simp)
  · obtain ⟨h1, h2⟩ := readUnits_shape (n / 2) b (pos + 4) s p' hq
    exact ⟨h1, by omega⟩

theorem c6_witness :
    List.length [97, 98, 99] = 6 / 2 ∧ (10 : Nat) = 0 + 4 + 2 * (6 / 2) :=
  c6_success_shape [6, 0, 0, 0, 97, 0, 98, 0, 99, 0] 0 6 [97, 98, 99] 10 rfl
    (by decide) rfl

/-! ### Claim C3: the stim sign-magnitude decode -/

/-- Claim C3 (code bug): the claim (and the spec) say the stim branch
outputs `(v &&& 0xFF) * s` negated when bit 8 is set, so raw 261 with step
10 should give `-50`.  The source's `sign = 1 - np.bitwise_and(signal,
256) // 128` is evaluated in uint16, where `1 - 2` wraps to 65535 instead
of `-1`: raw 261 with step 10 actually yields `50 * 65535 = 3276750`.  The
bit-clear case (raw 5, step 10, output `+50`) matches the claim; the
bit-set case refutes it.  The source's own comment ("convert the signal
from 9-bit one's complement to standard encoding") shows the signed output
was the intent. -/
theorem c3_stim_sign_wraps :
    stimDecode 10 5 = 50 ∧
    stimDecode 10 261 = 3276750 ∧
    stimDecode 10 261 ≠ -50 := by
  have h1 : Nat.land 5 255 = 5 := by decide
  have h2 : Nat.land 5 256 = 0 := by decide
  have h3 : Nat.land 261 255 = 5 := by decide
  have h4 : Nat.land 261 256 = 256 := by decide
  have h5 : u16sub 1 (0 / 128) = 1 := by decide
  have h6 : u16sub 1 (256 / 128) = 65535 := by decide
  refine ⟨?_, ?_, ?_⟩ <;> norm_num [stimDecode, h1, h2, h3, h4, h5, h6]

/-! ### Claims C1 and C2: missing digital branch and missing
unrecognized-stream rejection in the recording loop -/

/-- Interpreting an amp buffer holding the raw word 1000 yields `[195]`
(microvolts), the conversion the recording loop performs before reaching a
digital or unclassifiable file. -/
theorem interpret_amp_1000 :
    interpretStream 10 ("amp-A-000") [1000] none = some [(195 : ℚ)] := by
  simp only [interpretStream]
  rw [if_pos (by decide : signalTypeOf ("amp-A-000") = ampS)]
  simp only [List.map]
  norm_num [toI16, ampScale]

/-- A digital-input stem matches none of the four branches, so the loop
keeps the previous iteration's `signal` value. -/
theorem interpret_dig_keeps_prev (prev : Option (List ℚ)) :
    interpretStream 10 ("dig-in-00") [3] prev = prev := by
  simp only [interpretStream]
  rw [if_neg (by decide), if_neg (by decide), if_neg (by decide), if_neg (by decide)]

/-- An unclassifiable stem matches none of the four branches, so the loop
keeps the previous iteration's `signal` value. -/
theorem interpret_aux_keeps_prev (prev : Option (List ℚ)) :
    interpretStream 10 ("aux-A-000") [7] prev = prev := by
  simp only [interpretStream]
  rw [if_neg (by decide), if_neg (by decide), if_neg (by decide), if_neg (by decide)]

/-- Claim C1 (code bug): the spec requires digital buffers to be passed
through as raw unsigned 16-bit codes, but the recording loop of `load_rhs`
has no digital branch at all.  A digital buffer holding the raw word 3 is
recorded as `[195]` - the previous amp file's converted data - instead of
`[3]`; and when the digital file comes first, the loop crashes
(`signal` is referenced before assignment), aborting the whole load. -/
theorem c1_digital_stream_fallthrough :
    processFiles 10 [(("dig-in-00" : String), [3])] none = none ∧
    processFiles 10 [(("amp-A-000" : String), [1000]), (("dig-in-00" : String), [3])] none =
      some [(("amp-A-000" : String), [(195 : ℚ)]), (("dig-in-00" : String), [(195 : ℚ)])] := by
  constructor
  · rfl
  · simp only [processFiles, interpret_amp_1000, interpret_dig_keeps_prev]

/-- Claim C2 (code bug): the spec requires a buffer whose stream class
cannot be determined to be rejected with an error scoped to that buffer,
leaving sibling buffers intact.  The recording loop has no such rejection:
an unclassifiable first file crashes the whole load (aborting the decode of
every sibling, second conjunct), and an unclassifiable later file is
silently recorded with the previous file's converted data (third
conjunct). -/
theorem c2_unrecognized_stream_not_rejected :
    processFiles 10 [(("aux-A-000" : String), [7])] none = none ∧
    processFiles 10 [(("aux-A-000" : String), [7]), (("amp-A-000" : String), [1000])] none =
      none ∧
    processFiles 10 [(("amp-A-000" : String), [1000]), (("aux-A-000" : String), [7])] none =
      some [(("amp-A-000" : String), [(195 : ℚ)]), (("aux-A-000" : String), [(195 : ℚ)])] := by
  refine ⟨rfl, rfl, ?_⟩
  simp only [processFiles, interpret_amp_1000, interpret_aux_keeps_prev]

/-! ### Claim C8: channel classification -/

/-- Claim C8 (confirmed): for a decoded channel record with a nonzero
channel-enabled flag, signal class 0 appends the channel to
`amplifier_channels` with its paired trigger appended to `spike_triggers`;
classes 3, 4, 5, 6 append to the ADC, DAC, digital-in and digital-out
collections respectively; classes 1 and 2 raise `unsupportedSignalClass`;
every other class raises `unknownSignalClass`.  A record whose enabled flag
is zero is classified without error into no collection at all, and the
channel loop continues exactly at the cursor position where the record's
decode ended (its bytes are consumed, second conjunct). -/
theorem c8_channel_classification :
    (∀ (f : ChannelFields) (acc : ChanAcc),
      (f.channel_enabled = 0 → classifyChannel f acc = .ok acc) ∧
      (f.channel_enabled ≠ 0 →
        (f.signal_type = 0 → classifyChannel f acc =
          .ok { acc with
                amplifier_channels := acc.amplifier_channels ++ [f.ch],
                spike_triggers := acc.spike_triggers ++ [f.trig] }) ∧
        (f.signal_type = 1 ∨ f.signal_type = 2 →
          classifyChannel f acc = .error .unsupportedSignalClass) ∧
        (f.signal_type = 3 → classifyChannel f acc =
          .ok { acc with board_adc_channels := acc.board_adc_channels ++ [f.ch] }) ∧
        (f.signal_type = 4 → classifyChannel f acc =
          .ok { acc with board_dac_channels := acc.board_dac_channels ++ [f.ch] }) ∧
        (f.signal_type = 5 → classifyChannel f acc =
          .ok { acc with board_dig_in_channels := acc.board_dig_in_channels ++ [f.ch] }) ∧
        (f.signal_type = 6 → classifyChannel f acc =
          .ok { acc with board_dig_out_channels := acc.board_dig_out_channels ++ [f.ch] }) ∧
        (f.signal_type ≠ 0 → f.signal_type ≠ 1 → f.signal_type ≠ 2 →
          f.signal_type ≠ 3 → f.signal_type ≠ 4 → f.signal_type ≠ 5 →
          f.signal_type ≠ 6 →
          classifyChannel f acc = .error .unknownSignalClass))) ∧
    (∀ (gname gpfx : List Nat) (gi k : Nat) (acc : ChanAcc) (b : List Nat)
      (pos : Nat) (f : ChannelFields) (p' : Nat),
      decodeChannelFields gname gpfx gi b pos = .ok (f, p') →
      f.channel_enabled = 0 →
      readChannels gname gpfx gi (k + 1) acc b pos =
        readChannels gname gpfx gi k acc b p') := by
  constructor
  · intro f acc
    constructor
    · intro h0
      unfold classifyChannel
      rw [if_neg (by omega)]
    · intro hen
      refine ⟨?_, ?_, ?_, ?_, ?_, ?_, ?_⟩
      · intro h
        unfold classifyChannel
        rw [if_pos hen, if_pos h]
      · rintro (h | h)
        · unfold classifyChannel
          rw [if_pos hen, if_neg (by omega), if_pos h]
        · unfold classifyChannel
          rw [if_pos hen, if_neg (by omega), if_neg (by omega), if_pos h]
      · intro h
        unfold classifyChannel
        rw [if_pos hen, if_neg (by omega), if_neg (by omega), if_neg (by omega),
          if_pos h]
      · intro h
        unfold classifyChannel
        rw [if_pos hen, if_neg (by omega), if_neg (by omega), if_neg (by omega),
          if_neg (by omega), if_pos h]
      · intro h
        unfold classifyChannel
        rw [if_pos hen, if_neg (by omega), if_neg (by omega), if_neg (by omega),
          if_neg (by omega), if_neg (by omega), if_pos h]
      · intro h
        unfold classifyChannel
        rw [if_pos hen, if_neg (by omega), if_neg (by omega), if_neg (by omega),
          if_neg (by omega), if_neg (by omega), if_neg (by omega), if_pos h]
      · intro h0 h1 h2 h3 h4 h5 h6
        unfold classifyChannel
        rw [if_pos hen, if_neg h0, if_neg h1, if_neg h2, if_neg h3, if_neg h4,
          if_neg h5, if_neg h6]
  · intro gname gpfx gi k acc b pos f p' hdec hen
    have hc : classifyChannel f acc = .ok acc := by
      unfold classifyChannel
      rw [if_neg (by omega)]
    simp only [readChannels, rbind, hdec, rlift, hc]

/-- A concrete enabled amplifier-class channel record. -/
def chw : Channel :=
  { port_name := [], port_pfx := [], port_number := 1,
    native_channel_name := [], custom_channel_name := [], native_order := 0,
    custom_order := 0, chip_channel := 0, board_stream := 0,
    electrode_impedance_magnitude := 0, electrode_impedance_phase := 0 }

/-- A concrete trigger block. -/
def trigw : TriggerChannel :=
  { voltage_trigger_mode := 0, voltage_threshold := 0,
    digital_trigger_channel := 0, digital_edge_polarity := 0 }

/-- Enabled channel with signal class 0. -/
def fw0 : ChannelFields :=
  { ch := chw, trig := trigw, signal_type := 0, channel_enabled := 1 }

/-- Enabled channel with the out-of-range signal class 7. -/
def fw7 : ChannelFields :=
  { ch := chw, trig := trigw, signal_type := 7, channel_enabled := 1 }

theorem c8_witness :
    classifyChannel fw0 emptyAcc =
      .ok { emptyAcc with
            amplifier_channels := emptyAcc.amplifier_channels ++ [fw0.ch],
            spike_triggers := emptyAcc.spike_triggers ++ [fw0.trig] } ∧
    classifyChannel fw7 emptyAcc = .error .unknownSignalClass :=
  ⟨((c8_channel_classification.1 fw0 emptyAcc).2 (by decide)).1 rfl,
   ((c8_channel_classification.1 fw7 emptyAcc).2 (by decide)).2.2.2.2.2.2
     (by decide) (by decide) (by decide) (by decide) (by decide) (by decide)
     (by decide)⟩

/-! ### Claim C7: the magic-number check -/

/-- Claim C7 (confirmed): when the leading 4 bytes decode (little-endian)
to anything other than `0xD69127AC = 3599837100`, `_read_header` fails with
`badMagic` - and it does so for every source with those 4 leading bytes,
whatever follows them, so nothing beyond the 4-byte magic is consumed by
the failing check.  When the leading value is the magic, no `badMagic`
failure can occur anywhere in the decode. -/
theorem c7_bad_magic (b : List Nat) (m : Nat)
    (h : readU32 b 0 = .ok (m, 4)) :
    (m ≠ 3599837100 → _read_header b = .error .badMagic) ∧
    (m = 3599837100 → _read_header b ≠ .error .badMagic) := by
  constructor
  · intro hm
    have hcm : checkMagic b 0 = .error .badMagic := by
      simp only [checkMagic, rbind, h, magicBody]
      rw [if_neg hm]
    have hpre : readPrelude b 0 = .error .badMagic := by
      simp only [readPrelude, rbind, hcm]
    unfold _read_header
    rw [hpre]
  · intro hm
    have hcm : checkMagic b 0 = .ok ((), 4) := by
      simp only [checkMagic, rbind, h, magicBody]
      rw [if_pos hm]
    have hpre : readPrelude b 0 = readPreludeRest b 4 := by
      simp only [readPrelude, rbind, hcm]
    unfold _read_header
    rw [hpre]
    cases hr : readPreludeRest b 4 with
    | error e =>
      simp only [hr]
      intro hcon
      simp only [Except.error.injEq] at hcon
      exact nobm_readPreludeRest b 4 (by rw [hr, hcon])
    | ok v =>
      obtain ⟨pre, pos⟩ := v
      simp only [hr]
      cases hg : readGroups pre.number_of_signal_groups.toNat 1 emptyAcc b pos with
      | error e =>
        simp only [hg]
        intro hcon
        simp only [Except.error.injEq] at hcon
        exact nobm_readGroups pre.number_of_signal_groups.toNat 1 emptyAcc b pos
          (by rw [hg, hcon])
      | ok w =>
        obtain ⟨acc, p2⟩ := w
        simp only [hg]
        simp

theorem c7_witness :
    _read_header [0, 0, 0, 0] = .error .badMagic ∧
    _read_header [172, 39, 145, 214] ≠ .error .badMagic :=
  ⟨(c7_bad_magic [0, 0, 0, 0] 0 rfl).1 (by decide),
   (c7_bad_magic [172, 39, 145, 214] 3599837100 rfl).2 rfl⟩

/-! ### Claim C9: determinism and the count invariants -/

/-- Inversion of a successful `_read_header`: the prelude parsed, the group
loop parsed, and the header is their assembly. -/
theorem read_header_inversion (b : List Nat) (h : Header)
    (hd : _read_header b = .ok h) :
    ∃ pre pos acc p2,
      readPrelude b 0 = .ok (pre, pos) ∧
      readGroups pre.number_of_signal_groups.toNat 1 emptyAcc b pos = .ok (acc, p2) ∧
      h = buildHeader pre acc := by
  unfold _read_header at hd
  cases hp : readPrelude b 0 with
  | error e => rw [hp] at hd; exact absurd hd (by simp)
  | ok v =>
    obtain ⟨pre, pos⟩ := v
    simp only [hp] at hd
    cases hg : readGroups pre.number_of_signal_groups.toNat 1 emptyAcc b pos with
    | error e =>
      simp only [hg] at hd
      exact absurd hd (by simp)
    | ok w =>
      obtain ⟨acc, p2⟩ := w
      simp only [hg, Except.ok.injEq] at hd
      exact ⟨pre, pos, acc, p2, rfl, hg, hd.symm⟩

/-- The pairing invariant: one spike trigger per amplifier channel. -/
def SpikeInv (acc : ChanAcc) : Prop :=
  acc.spike_triggers.length = acc.amplifier_channels.length

theorem classify_spikeInv (f : ChannelFields) (acc acc' : ChanAcc)
    (h : classifyChannel f acc = .ok acc') (hs : SpikeInv acc) : SpikeInv acc' := by
  unfold classifyChannel at h
  split_ifs at h
  all_goals
    simp only [Except.ok.injEq] at h
    subst h
    unfold SpikeInv at hs ⊢
    try simp
    omega

/-- Readers into the collections whose every successful result respects the
spike pairing invariant. -/
def AccInv (f : Reader ChanAcc) : Prop :=
  ∀ b pos acc' p', f b pos = .ok (acc', p') → SpikeInv acc'

theorem accinv_rbind {α : Type} {f : Reader α} {g : α → Reader ChanAcc}
    (hg : ∀ a, AccInv (g a)) : AccInv (rbind f g) := by
  intro b pos acc' p' h
  simp only [rbind] at h
  cases hfe : f b pos with
  | error e => rw [hfe] at h; exact absurd h (by simp)
  | ok v =>
    obtain ⟨a, pm⟩ := v
    rw [hfe] at h
    exact hg a b pm acc' p' h

theorem accinv_readChannels (gname gpfx : List Nat) (gi k : Nat) (acc : ChanAcc)
    (hs : SpikeInv acc) : AccInv (readChannels gname gpfx gi k acc) := by
  induction k generalizing acc with
  | zero =>
    intro b pos acc' p' h
    simp only [readChannels, rpure, Except.ok.injEq, Prod.mk.injEq] at h
    rw [← h.1]
    exact hs
  | succ k ih =>
    simp only [readChannels]
    refine accinv_rbind fun f => ?_
    intro b pos acc' p' h
    simp only [rbind, rlift] at h
    cases hc : classifyChannel f acc with
    | error e => rw [hc] at h; exact absurd h (by simp)
    | ok acc1 =>
      rw [hc] at h
      exact ih acc1 (classify_spikeInv f acc acc1 hc hs) b pos acc' p' h

theorem accinv_groupStep (gi : Nat) (acc : ChanAcc) (hs : SpikeInv acc) :
    AccInv (groupStep gi acc) := by
  unfold groupStep
  refine accinv_rbind fun gname => ?_
  refine accinv_rbind fun gpfx => ?_
  refine accinv_rbind fun en => ?_
  refine accinv_rbind fun nc => ?_
  refine accinv_rbind fun na => ?_
  split
  · exact accinv_readChannels gname gpfx gi nc.toNat acc hs
  · intro b pos acc' p' h
    simp only [rpure, Except.ok.injEq, Prod.mk.injEq] at h
    rw [← h.1]
    exact hs

theorem accinv_readGroups (k gi : Nat) (acc : ChanAcc) (hs : SpikeInv acc) :
    AccInv (readGroups k gi acc) := by
  induction k generalizing gi acc with
  | zero =>
    intro b pos acc' p' h
    simp only [readGroups, rpure, Except.ok.injEq, Prod.mk.injEq] at h
    rw [← h.1]
    exact hs
  | succ k ih =>
    intro b pos acc' p' h
    simp only [readGroups, rbind] at h
    cases hst : groupStep gi acc b pos with
    | error e => rw [hst] at h; exact absurd h (by simp)
    | ok v =>
      obtain ⟨acc1, pm⟩ := v
      rw [hst] at h
      have hs1 : SpikeInv acc1 := accinv_groupStep gi acc hs b pos acc1 pm hst
      exact ih (gi + 1) acc1 hs1 b pm acc' p' h

/-- Claim C9 (confirmed): header decoding is a pure function of the byte
stream (two successful decodes of the same bytes agree), each of the five
derived count fields equals the length of its collection, and
`spike_triggers` is exactly as long as `amplifier_channels`. -/
theorem c9_decode_invariants (b : List Nat) (h₁ h₂ : Header)
    (d₁ : _read_header b = .ok h₁) (d₂ : _read_header b = .ok h₂) :
    h₁ = h₂ ∧
    h₁.num_amplifier_channels = h₁.amplifier_channels.length ∧
    h₁.num_board_adc_channels = h₁.board_adc_channels.length ∧
    h₁.num_board_dac_channels = h₁.board_dac_channels.length ∧
    h₁.num_board_dig_in_channels = h₁.board_dig_in_channels.length ∧
    h₁.num_board_dig_out_channels = h₁.board_dig_out_channels.length ∧
    h₁.spike_triggers.length = h₁.amplifier_channels.length := by
  have hdet : h₁ = h₂ := by
    rw [d₁] at d₂
    simpa using d₂
  obtain ⟨pre, pos, acc, p2, hp, hg, hb⟩ := read_header_inversion b h₁ d₁
  have hspike : SpikeInv acc :=
    accinv_readGroups pre.number_of_signal_groups.toNat 1 emptyAcc rfl b pos acc p2 hg
  subst hb
  exact ⟨hdet, rfl, rfl, rfl, rfl, rfl, hspike⟩

/-- A complete 184-byte RHS header stream: valid magic, zeroed scalar
block, empty notes and reference name, and one enabled signal group
declaring two channels - an enabled amplifier-class channel followed by a
disabled channel. -/
def wbytes : List Nat :=
  [172, 39, 145, 214]
  ++ List.replicate 42 0
  ++ List.replicate 26 0
  ++ [255, 255, 255, 255] ++ [255, 255, 255, 255] ++ [255, 255, 255, 255]
  ++ [0, 0, 0, 0]
  ++ [255, 255, 255, 255]
  ++ [1, 0]
  ++ [255, 255, 255, 255] ++ [255, 255, 255, 255]
  ++ [1, 0, 2, 0, 0, 0]
  ++ [255, 255, 255, 255] ++ [255, 255, 255, 255]
  ++ [0, 0, 0, 0, 0, 0, 1, 0, 0, 0, 0, 0, 0, 0]
  ++ List.replicate 8 0
  ++ List.replicate 8 0
  ++ [255, 255, 255, 255] ++ [255, 255, 255, 255]
  ++ [0, 0, 0, 0, 0, 0, 0, 0, 0, 0, 0, 0, 0, 0]
  ++ List.replicate 8 0
  ++ List.replicate 8 0

/-- The header decoded from `wbytes`. -/
def wheader : Header :=
  match _read_header wbytes with
  | .ok h => h
  | .error _ => default

theorem c9_witness :
    wheader = wheader ∧
    wheader.num_amplifier_channels = wheader.amplifier_channels.length ∧
    wheader.num_board_adc_channels = wheader.board_adc_channels.length ∧
    wheader.num_board_dac_channels = wheader.board_dac_channels.length ∧
    wheader.num_board_dig_in_channels = wheader.board_dig_in_channels.length ∧
    wheader.num_board_dig_out_channels = wheader.board_dig_out_channels.length ∧
    wheader.spike_triggers.length = wheader.amplifier_channels.length :=
  c9_decode_invariants wbytes wheader wheader rfl rfl

/-! ### Claim C10: the third per-group count field is inert -/

/-- Overwriting the two bytes of one int16 field at offset `i`. -/
def upd2 (b : List Nat) (i x y : Nat) : List Nat := (b.set i x).set (i + 1) y

theorem length_upd2 (b : List Nat) (i x y : Nat) :
    (upd2 b i x y).length = b.length := by
  unfold upd2
  rw [List.length_set, List.length_set]

theorem byteAt_upd2_ne (b : List Nat) (i x y j : Nat) (h1 : j ≠ i) (h2 : j ≠ i + 1) :
    byteAt (upd2 b i x y) j = byteAt b j := by
  unfold upd2 byteAt
  rw [List.getD_eq_getElem?_getD, List.getD_eq_getElem?_getD,
    List.getElem?_set_ne (by omega : i + 1 ≠ j), List.getElem?_set_ne (by omega : i ≠ j)]

/-- Splitting the fuel of the group loop: running `k + m` groups is running
`k` groups and then `m` more from where they stopped. -/
theorem readGroups_split (k m gi : Nat) (acc : ChanAcc) (b : List Nat) (pos : Nat) :
    readGroups (k + m) gi acc b pos =
      match readGroups k gi acc b pos with
      | .error e => .error e
      | .ok (acc', pos') => readGroups m (gi + k) acc' b pos' := by
  induction k generalizing gi acc pos with
  | zero =>
    rw [Nat.zero_add]
    rfl
  | succ k ih =>
    have he : k + 1 + m = (k + m) + 1 := by omega
    rw [he]
    show (rbind (groupStep gi acc) fun acc' => readGroups (k + m) (gi + 1) acc') b pos = _
    simp only [rbind]
    cases hst : groupStep gi acc b pos with
    | error e =>
      simp only [readGroups, rbind, hst]
    | ok v =>
      obtain ⟨acc1, pm⟩ := v
      show readGroups (k + m) (gi + 1) acc1 b pm = _
      rw [ih (gi + 1) acc1 pm]
      simp only [readGroups, rbind, hst]
      have hgi : gi + 1 + k = gi + (k + 1) := by omega
      rw [hgi]

/-- Reading one signed short at a position with at least two bytes left. -/
theorem readI16_eval (b : List Nat) (pos : Nat) (h : pos + 2 ≤ b.length) :
    readI16 b pos = .ok (toI16 (byteAt b pos + 256 * byteAt b (pos + 1)), pos + 2) := by
  simp only [readI16, rbind, readU16]
  rw [if_pos h]
  rfl

/-- Evaluation of one group iteration when the two group strings have been
decoded and the six bytes of the three shorts are present: the enabled
flag and channel count come from the first four bytes, the third short's
bytes are consumed (cursor lands at `p2 + 6`), and its value binds to no
variable the continuation uses. -/
theorem groupStep_eval (gi : Nat) (acc : ChanAcc) (b : List Nat) (pos : Nat)
    (gname gpfx : List Nat) (p1 p2 : Nat)
    (h1 : _read_qstring b pos = .ok (gname, p1))
    (h2 : _read_qstring b p1 = .ok (gpfx, p2))
    (hlen : p2 + 6 ≤ b.length) :
    groupStep gi acc b pos =
      (if 0 < toI16 (byteAt b (p2 + 2) + 256 * byteAt b (p2 + 3)) ∧
          0 < toI16 (byteAt b p2 + 256 * byteAt b (p2 + 1)) then
        readChannels gname gpfx gi
          (toI16 (byteAt b (p2 + 2) + 256 * byteAt b (p2 + 3))).toNat acc
      else rpure acc) b (p2 + 6) := by
  have hr1 := readI16_eval b p2 (by omega)
  have hr2 := readI16_eval b (p2 + 2) (by omega)
  have hr3 := readI16_eval b (p2 + 4) (by omega)
  simp only [groupStep, rbind, h1, h2, hr1, hr2, hr3]

/-- Claim C10 (confirmed): consider any header stream whose decode reaches
a signal group - the prelude parses, `k` whole groups parse, and the next
group's two strings parse with its three shorts present.  Overwrite the two
bytes of that group's third int16 count field (the historical per-group
amplifier-channel count, bound to `signal_group_num_amp_channels`) with any
byte values: the whole header decode is unchanged - it fails on both
streams identically or succeeds on both with equal headers.  The field is
still read: its two bytes are consumed, the cursor landing at `p2 + 6`
(first conjunct).  Streams differing in this field of several groups are
reached by applying the theorem once per changed group. -/
theorem c10_third_count_field_inert (b : List Nat) (x y : Nat) (pre : Pre)
    (pos0 k pos : Nat) (acc : ChanAcc) (gname gpfx : List Nat) (p1 p2 : Nat)
    (_hx : x < 256) (_hy : y < 256)
    (hpre : readPrelude b 0 = .ok (pre, pos0))
    (hk : k < pre.number_of_signal_groups.toNat)
    (hreach : readGroups k 1 emptyAcc b pos0 = .ok (acc, pos))
    (h1 : _read_qstring b pos = .ok (gname, p1))
    (h2 : _read_qstring b p1 = .ok (gpfx, p2))
    (hlen : p2 + 6 ≤ b.length) :
    (∃ t, readI16 b (p2 + 4) = .ok (t, p2 + 6)) ∧
    _read_header (upd2 b (p2 + 4) x y) = _read_header b := by
  constructor
  · exact ⟨_, readI16_eval b (p2 + 4) (by omega)⟩
  · have hlen' : (upd2 b (p2 + 4) x y).length = b.length := length_upd2 b (p2 + 4) x y
    have hpos0 : pos0 ≤ pos := (good_readGroups k 1 emptyAcc).1 b pos0 acc pos hreach
    have hposp1 : pos ≤ p1 := good_qstring.1 b pos gname p1 h1
    have hp1p2 : p1 ≤ p2 := good_qstring.1 b p1 gpfx p2 h2
    have hagbelow : ∀ j, j < p2 + 4 → byteAt (upd2 b (p2 + 4) x y) j = byteAt b j :=
      fun j hj => byteAt_upd2_ne b (p2 + 4) x y j (by omega) (by omega)
    have hagabove : ∀ j, p2 + 6 ≤ j → byteAt (upd2 b (p2 + 4) x y) j = byteAt b j :=
      fun j hj => byteAt_upd2_ne b (p2 + 4) x y j (by omega) (by omega)
    have hpre' : readPrelude (upd2 b (p2 + 4) x y) 0 = .ok (pre, pos0) :=
      good_readPrelude.2.2 b (upd2 b (p2 + 4) x y) 0 pre pos0 hpre hlen'
        (fun j _ hj2 => hagbelow j (by omega))
    have hreach' : readGroups k 1 emptyAcc (upd2 b (p2 + 4) x y) pos0 = .ok (acc, pos) :=
      (good_readGroups k 1 emptyAcc).2.2 b (upd2 b (p2 + 4) x y) pos0 acc pos hreach
        hlen' (fun j _ hj2 => hagbelow j (by omega))
    have h1' : _read_qstring (upd2 b (p2 + 4) x y) pos = .ok (gname, p1) :=
      good_qstring.2.2 b (upd2 b (p2 + 4) x y) pos gname p1 h1 hlen'
        (fun j _ hj2 => hagbelow j (by omega))
    have h2' : _read_qstring (upd2 b (p2 + 4) x y) p1 = .ok (gpfx, p2) :=
      good_qstring.2.2 b (upd2 b (p2 + 4) x y) p1 gpfx p2 h2 hlen'
        (fun j _ hj2 => hagbelow j (by omega))
    obtain ⟨m, hG⟩ : ∃ m, pre.number_of_signal_groups.toNat = k + (m + 1) :=
      ⟨pre.number_of_signal_groups.toNat - k - 1, by omega⟩
    have hcore : readGroups (m + 1) (1 + k) acc (upd2 b (p2 + 4) x y) pos =
        readGroups (m + 1) (1 + k) acc b pos := by
      show (rbind (groupStep (1 + k) acc) fun acc' =>
              readGroups m (1 + k + 1) acc') (upd2 b (p2 + 4) x y) pos =
           (rbind (groupStep (1 + k) acc) fun acc' =>
              readGroups m (1 + k + 1) acc') b pos
      simp only [rbind]
      rw [groupStep_eval (1 + k) acc (upd2 b (p2 + 4) x y) pos gname gpfx p1 p2
            h1' h2' (by omega),
          groupStep_eval (1 + k) acc b pos gname gpfx p1 p2 h1 h2 hlen,
          hagbelow p2 (by omega), hagbelow (p2 + 1) (by omega),
          hagbelow (p2 + 2) (by omega), hagbelow (p2 + 3) (by omega)]
      generalize toI16 (byteAt b (p2 + 2) + 256 * byteAt b (p2 + 3)) = nc
      generalize toI16 (byteAt b p2 + 256 * byteAt b (p2 + 1)) = en
      have hRgood : Good (if 0 < nc ∧ 0 < en then
          readChannels gname gpfx (1 + k) nc.toNat acc else rpure acc) := by
        split
        · exact good_readChannels gname gpfx (1 + k) nc.toNat acc
        · exact good_rpure acc
      rw [hRgood.2.1 b (upd2 b (p2 + 4) x y) (p2 + 6) hlen' hagabove]
      cases hres : (if 0 < nc ∧ 0 < en then
          readChannels gname gpfx (1 + k) nc.toNat acc else rpure acc) b (p2 + 6) with
      | error e => rfl
      | ok v =>
        obtain ⟨acc1, pm⟩ := v
        have hpm : p2 + 6 ≤ pm := hRgood.1 b (p2 + 6) acc1 pm hres
        exact (good_readGroups m (1 + k + 1) acc1).2.1 b (upd2 b (p2 + 4) x y) pm
          hlen' (fun j hj => hagabove j (by omega))
    unfold _read_header
    simp only [hpre, hpre']
    rw [hG, readGroups_split k (m + 1) 1 emptyAcc (upd2 b (p2 + 4) x y) pos0,
      readGroups_split k (m + 1) 1 emptyAcc b pos0]
    simp only [hreach, hreach']
    rw [hcore]

/-- The prelude decoded from `wbytes` together with its end position. -/
def wprelude : Pre × Nat :=
  match readPrelude wbytes 0 with
  | .ok v => v
  | .error _ => default

theorem c10_witness :
    (∃ t, readI16 wbytes 106 = .ok (t, 108)) ∧
    _read_header (upd2 wbytes 106 5 0) = _read_header wbytes :=
  c10_third_count_field_inert wbytes 5 0 wprelude.1 94 0 94 emptyAcc [] [] 98 102
    (by decide) (by decide) rfl (by decide) rfl rfl rfl (by decide)

end IntanRHS
